import Mathlib

/-!
Verification of the World orchestrator of the flatland simulator
(flatland_server/src/world.cpp): description loading and validation,
layer/model composition, the step loop, and the teardown ordering.

The physics engine (Box2D), the YAML parsing library, the Layer and Model
builders, and the plugin manager are external collaborators; they enter the
model as abstract oracles in an environment record, or as event vocabulary
when only the order of calls to them matters.  YAML documents are modelled
as already-parsed trees (file reading and syntax errors are abstracted:
World::MakeWorld, World::LoadLayers and World::LoadModels all parse the same
file and obtain the same tree).
-/

set_option autoImplicit false

namespace Flatland

/-- Parsed YAML tree.  Scalars are split into strings and numbers so that
the as-double conversion performed on pose entries is total on numbers and
fails on everything else, matching the conversion exceptions of the parser
library. -/
inductive Yaml where
  | str (s : String)
  | num (x : Rat)
  | seq (items : List Yaml)
  | map (entries : List (String × Yaml))

/-- Lookup of node[key]: defined only on mapping nodes, an undefined node
otherwise (yaml-cpp returns a falsy undefined node there). -/
def Yaml.get (y : Yaml) (k : String) : Option Yaml :=
  match y with
  | .map es => es.lookup k
  | _ => none

/-- IsSequence of yaml-cpp. -/
def Yaml.isSequence : Yaml → Bool
  | .seq _ => true
  | _ => false

/-- IsMap of yaml-cpp. -/
def Yaml.isMap : Yaml → Bool
  | .map _ => true
  | _ => false

/-- Conversion as-string: succeeds on string scalars only; on other nodes the
parser library throws a conversion exception. -/
def Yaml.asString : Yaml → Option String
  | .str s => some s
  | _ => none

/-- Conversion as-double: succeeds on numeric scalars only. -/
def Yaml.asRat : Yaml → Option Rat
  | .num x => some x
  | _ => none

/-- Error taxonomy: YAMLException (description errors) and PluginException
of flatland_server/include/flatland_server/exceptions.h. -/
inductive Err where
  | descriptionError (msg : String)
  | pluginError (msg : String)
  deriving DecidableEq

/-- A static layer, as far as the World orchestrator observes it: the builder
returns an object with a name (geometry and the physics body stay inside the
external Layer class). -/
structure Layer where
  name : String
  deriving DecidableEq

/-- A pose (x, y, theta). -/
abbrev Pose := Rat × Rat × Rat

/-- A model, as far as the World orchestrator observes it: its name, the
plugins node of its own description (plugins_node_), and the list of pose
transforms that have been applied to it (TransformAll appends one entry; the
list records how many times and with which pose the transform ran). -/
structure Model where
  name : String
  plugins_node : Option Yaml
  transforms : List Pose

/-- The World state owned by world.cpp: the layers and models sequences and
the collision filter registry's layer count.

Modelled from the spec: the CollisionFilterRegistry (not part of the shown
source) is bounded by MAX_LAYERS and registers one slot per layer entry; it
is modelled as a counter incremented once per successfully built layer, with
IsLayersFull meaning the counter has reached MAX_LAYERS. -/
structure World where
  layers : List Layer
  models : List Model
  cfrLayerCount : Nat

/-- The empty World built by the World constructor (no layers, no models,
empty registry; the physics engine is created and the contact listener
registered, both tracked only by the teardown trace). -/
def World.new : World := ⟨[], [], 0⟩

/-- IsLayersFull of the collision filter registry.
Modelled from the spec: the registry is full when the layer count has
reached MAX_LAYERS. -/
def isLayersFull (maxLayers count : Nat) : Bool := maxLayers ≤ count

/-- The external collaborators of world.cpp, as oracles: the bound of the
collision filter registry, Layer::MakeLayer (given the description's base
directory and the entry node), Model::MakeModel (given the resolved model
description path, the namespace and the name), and
PluginManager::LoadModelPlugin.  Each may fail with a description or plugin
error, which world.cpp lets propagate. -/
structure Env where
  MAX_LAYERS : Nat
  makeLayer : String → Yaml → Except Err Layer
  makeModel : String → String → String → Except Err Model
  loadModelPlugin : Model → Yaml → Except Err Unit

/-- Characters strictly before the last path separator of a character list,
or none when the list has no separator. -/
def dropLastComponent : List Char → Option (List Char)
  | [] => none
  | c :: cs =>
    match dropLastComponent cs with
    | some rest => some (c :: rest)
    | none => if c = '/' then some [] else none

/-- parent_path of boost::filesystem: everything before the last separator,
with the root kept for paths such as "/foo", and empty when the path has no
directory part. -/
def parentPath (p : String) : String :=
  match dropLastComponent p.data with
  | none => ""
  | some [] => if p.data.head? = some '/' then "/" else ""
  | some cs => String.mk cs

/-- Whether a path ends in a separator. -/
def endsWithSep (s : String) : Bool :=
  match s.data.getLast? with
  | some c => c = '/'
  | none => false

/-- Concatenation operator of boost::filesystem paths: inserts a separator
unless the left side is empty or already ends in one. -/
def pathJoin (a b : String) : String :=
  if a = "" then b
  else if endsWithSep a then a ++ b
  else a ++ "/" ++ b

/-- Path resolution of world.cpp lines 231-233: the absoluteness test reads
model_path.string().front(), so on the empty string the access is out of
bounds (undefined behaviour, modelled as no result); otherwise a path whose
first character is the separator is used unchanged and any other path is
joined onto the description's base directory. -/
def resolveModelPath (dir mp : String) : Option String :=
  match mp.data with
  | [] => none
  | c :: _ => some (if c = '/' then mp else pathJoin dir mp)

/-- Events of the loading phase, recording the calls world.cpp makes into
its collaborators and the mutations of its own sequences, in order. -/
inductive LEvent where
  | makeLayerCall (dir : String)
  | layerLoaded (name : String)
  | makeModelCall (path ns name : String)
  | transformAll (name : String) (pose : Pose)
  | modelAppended (name : String)
  | pluginLoadCall (modelName : String)
  | modelLoaded (name : String)
  deriving DecidableEq

/-- Result of a loading step: normal return with the updated World, an
exception thrown with the World in its partial state at the throw point, or
an execution that ran into undefined behaviour (front() on an empty string).
Each carries the trace of loading events that happened before it. -/
inductive LoadResult where
  | ok (w : World) (tr : List LEvent)
  | err (w : World) (e : Err) (tr : List LEvent)
  | undef (tr : List LEvent)

/-- Prepend earlier events to a result's trace. -/
def LoadResult.withTrace (pre : List LEvent) : LoadResult → LoadResult
  | .ok w tr => .ok w (pre ++ tr)
  | .err w e tr => .err w e (pre ++ tr)
  | .undef tr => .undef (pre ++ tr)

/-- The World a result leaves behind (none when undefined behaviour occurred). -/
def LoadResult.world? : LoadResult → Option World
  | .ok w _ => some w
  | .err w _ _ => some w
  | .undef _ => none

/-- The error a result threw, if any. -/
def LoadResult.error? : LoadResult → Option Err
  | .err _ e _ => some e
  | _ => none

/-- The event trace of a result. -/
def LoadResult.trace : LoadResult → List LEvent
  | .ok _ tr => tr
  | .err _ _ tr => tr
  | .undef tr => tr

/-- Whether a result is a normal return. -/
def LoadResult.isOk : LoadResult → Bool
  | .ok _ _ => true
  | _ => false

/-- Loop body sequence of World::LoadLayers (world.cpp lines 166-180): for
each entry check IsLayersFull (throwing the max-layers error naming the
limit), build the layer, append it to layers. -/
def loadLayersFrom (env : Env) (dir : String) : List Yaml → World → LoadResult
  | [], w => .ok w []
  | n :: rest, w =>
    if isLayersFull env.MAX_LAYERS w.cfrLayerCount then
      .err w
        (.descriptionError
          ("Max number of layers reached, max is " ++ toString env.MAX_LAYERS)) []
    else
      match env.makeLayer dir n with
      | .error e => .err w e [.makeLayerCall dir]
      | .ok layer =>
        (loadLayersFrom env dir rest
            { w with
              layers := w.layers ++ [layer],
              cfrLayerCount := w.cfrLayerCount + 1 }).withTrace
          [.makeLayerCall dir, .layerLoaded layer.name]

/-- World::LoadLayers (world.cpp lines 150-181): require a layers key of
sequence type, then run the per-entry loop with the description's base
directory. -/
def loadLayers (env : Env) (yamlPath : String) (yaml : Yaml) (w : World) :
    LoadResult :=
  match yaml.get "layers" with
  | some (Yaml.seq nodes) => loadLayersFrom env (parentPath yamlPath) nodes w
  | some _ => .err w (.descriptionError "Missing/invalid world param \"layers\"") []
  | none => .err w (.descriptionError "Missing/invalid world param \"layers\"") []

/-- Plugin loading loop of World::LoadModel (world.cpp lines 252-254): hand
each declared plugin node to the plugin manager, stopping at the first
failure.  Returns the outcome and the trace of plugin-manager calls made. -/
def loadPluginList (env : Env) (m : Model) :
    List Yaml → Except Err Unit × List LEvent
  | [] => (.ok (), [])
  | n :: rest =>
    match env.loadModelPlugin m n with
    | .error e => (.error e, [.pluginLoadCall m.name])
    | .ok _ =>
      let (r, tr) := loadPluginList env m rest
      (r, .pluginLoadCall m.name :: tr)

/-- World::LoadModel (world.cpp lines 240-258): build the model, apply the
pose transform, append it to models, then validate and load its declared
plugins (a plugins node must be absent or a sequence; each entry goes to the
plugin manager). -/
def loadModel (env : Env) (modelYamlPath ns name : String) (pose : Pose)
    (w : World) : LoadResult :=
  match env.makeModel modelYamlPath ns name with
  | .error e => .err w e [.makeModelCall modelYamlPath ns name]
  | .ok m =>
    let m' : Model := { m with transforms := m.transforms ++ [pose] }
    let w' : World := { w with models := w.models ++ [m'] }
    let pre : List LEvent :=
      [.makeModelCall modelYamlPath ns name, .transformAll m.name pose,
        .modelAppended m.name]
    match m'.plugins_node with
    | none => .ok w' (pre ++ [.modelLoaded m.name])
    | some (Yaml.seq pnodes) =>
      match loadPluginList env m' pnodes with
      | (.error e, tr) => .err w' e (pre ++ tr)
      | (.ok _, tr) => .ok w' (pre ++ tr ++ [.modelLoaded m.name])
    | some _ =>
      .err w'
        (.descriptionError ("Invalid \"plugins\" in " ++ m.name ++ " model, not a list"))
        pre

/-- Loop body of World::LoadModels (world.cpp lines 198-235) for the entry
at index i: read name (required), namespace (optional, defaulting to ""),
pose (required sequence of exactly 3 numbers), model (required path), then
resolve the model path against the base directory and call LoadModel. -/
def loadModelEntry (env : Env) (dir : String) (i : Nat) (node : Yaml)
    (w : World) : LoadResult :=
  match node.get "name" with
  | none =>
    .err w (.descriptionError ("Missing model name in model index=" ++ toString i)) []
  | some nameNode =>
    match nameNode.asString with
    | none => .err w (.descriptionError "bad conversion") []
    | some name =>
      match (node.get "namespace").elim (some "") Yaml.asString with
      | none => .err w (.descriptionError "bad conversion") []
      | some ns =>
        match node.get "pose" with
        | some (Yaml.seq [p0, p1, p2]) =>
          match p0.asRat, p1.asRat, p2.asRat with
          | some x, some y, some t =>
            match node.get "model" with
            | none =>
              .err w (.descriptionError ("Missing \"model\" in " ++ name ++ " model")) []
            | some mNode =>
              match mNode.asString with
              | none => .err w (.descriptionError "bad conversion") []
              | some mp =>
                match resolveModelPath dir mp with
                | none => .undef []
                | some modelPath => loadModel env modelPath ns name (x, y, t) w
          | _, _, _ => .err w (.descriptionError "bad conversion") []
        | some _ =>
          .err w (.descriptionError ("Missing/invalid \"pose\" in " ++ name ++ " model")) []
        | none =>
          .err w (.descriptionError ("Missing/invalid \"pose\" in " ++ name ++ " model")) []

/-- Loop of World::LoadModels over the entries of the models sequence, in
order, threading the World state and the entry index. -/
def loadModelsFrom (env : Env) (dir : String) : Nat → List Yaml → World → LoadResult
  | _, [], w => .ok w []
  | i, n :: rest, w =>
    match loadModelEntry env dir i n w with
    | .ok w' tr => (loadModelsFrom env dir (i + 1) rest w').withTrace tr
    | r => r

/-- World::LoadModels (world.cpp lines 183-238): the models key is optional;
when present it must be a sequence (the error message of line 195 names the
field "layers"), and its entries are processed in order. -/
def loadModels (env : Env) (yamlPath : String) (yaml : Yaml) (w : World) :
    LoadResult :=
  match yaml.get "models" with
  | none => .ok w []
  | some (Yaml.seq nodes) => loadModelsFrom env (parentPath yamlPath) 0 nodes w
  | some _ =>
    .err w (.descriptionError "Invalid world param \"layers\", must be a sequence") []

/-- The loading phase of World::MakeWorld: LoadLayers then LoadModels on the
same description, stopping at the first exception or undefined behaviour. -/
def loadStage (env : Env) (yamlPath : String) (yaml : Yaml) (w : World) :
    LoadResult :=
  match loadLayers env yamlPath yaml w with
  | .ok w' tr => (loadModels env yamlPath yaml w').withTrace tr
  | r => r

/-- Teardown events of the World destructor and the engine operations
available at teardown.  destroyBody is the per-body removal the engine
offers (b2World::DestroyBody); the destructor deliberately never uses it. -/
inductive TEvent where
  | clearContactListener
  | nullBodyPhysicsPtr (i : Nat)
  | freeLayer (i : Nat)
  | freeModel (i : Nat)
  | destroyBody (i : Nat)
  | freePhysicsWorld
  deriving DecidableEq

/-- World::~World (world.cpp lines 64-92) as its sequence of effects: clear
the contact listener; for each layer in order null the physics-body pointer
of its body and free the layer; free each model; free the physics world. -/
def destroyWorld (w : World) : List TEvent :=
  TEvent.clearContactListener ::
    (((List.range w.layers.length).map fun i =>
        [TEvent.nullBodyPhysicsPtr i, TEvent.freeLayer i]).flatten
      ++ (List.range w.models.length).map TEvent.freeModel
      ++ [TEvent.freePhysicsWorld])

/-- Outcome of World::MakeWorld (world.cpp lines 117-148): a fully loaded
World, or an error re-raised to the caller together with the teardown trace
run on the partial World (empty when the failure happened before the World
was constructed), or undefined behaviour. -/
inductive MakeResult where
  | ok (w : World)
  | err (e : Err) (teardown : List TEvent)
  | undef

/-- World::MakeWorld (world.cpp lines 117-148): require a properties key of
mapping type, construct the empty World, run LoadLayers then LoadModels,
and on a description or plugin error delete the partial World and re-raise. -/
def makeWorld (env : Env) (yamlPath : String) (yaml : Yaml) : MakeResult :=
  match yaml.get "properties" with
  | some p =>
    if p.isMap then
      match loadStage env yamlPath yaml World.new with
      | .ok w _ => .ok w
      | .err w e _ => .err e (destroyWorld w)
      | .undef _ => .undef
    else .err (.descriptionError "Missing/invalid world param \"properties\"") []
  | none => .err (.descriptionError "Missing/invalid world param \"properties\"") []

/-- The timekeeper.
Modelled from the spec: the Timekeeper (not part of the shown source) tracks
elapsed simulation time, exposes the fixed step size, and is advanced once
per tick; StepTime adds one step size to the clock. -/
structure Timekeeper where
  stepSize : Rat
  time : Rat
  deriving DecidableEq

/-- GetStepSize of the timekeeper. -/
def Timekeeper.getStepSize (tk : Timekeeper) : Rat := tk.stepSize

/-- StepTime of the timekeeper: advance the clock by one fixed step. -/
def Timekeeper.stepTime (tk : Timekeeper) : Timekeeper :=
  { tk with time := tk.time + tk.stepSize }

/-- Events of one tick of the step loop. -/
inductive UEvent where
  | beforePhysicsStep
  | physicsStep (dt : Rat) (velocityIterations positionIterations : Nat)
  | stepTime
  | afterPhysicsStep
  deriving DecidableEq

/-- Test for the physics-step event. -/
def UEvent.isPhysicsStep : UEvent → Bool
  | .physicsStep _ _ _ => true
  | _ => false

/-- World::Update (world.cpp lines 94-99): pre-step hook, one engine step
with the timekeeper's step size and solver iteration counts 10 and 10,
advance the clock, post-step hook.  Returns the advanced timekeeper and the
trace of effects in order. -/
def worldUpdate (tk : Timekeeper) : Timekeeper × List UEvent :=
  (tk.stepTime,
    [UEvent.beforePhysicsStep, UEvent.physicsStep tk.getStepSize 10 10,
      UEvent.stepTime, UEvent.afterPhysicsStep])

/-- Event e1 occurs strictly before event e2 in the trace tr. -/
def precedes {α : Type} (tr : List α) (e1 e2 : α) : Prop :=
  ∃ a b : Nat, a < b ∧ tr[a]? = some e1 ∧ tr[b]? = some e2

/-- Shorthand for the per-layer teardown block list of the destructor. -/
def layerTeardown (n : Nat) : List TEvent :=
  ((List.range n).map fun i =>
    [TEvent.nullBodyPhysicsPtr i, TEvent.freeLayer i]).flatten

/-- Sample environment for the closed witnesses: every layer build yields a
layer named L, every model build yields a plugin-free model of the given
name, every plugin load succeeds, and the registry bound is two layers. -/
def sampleEnv : Env where
  MAX_LAYERS := 2
  makeLayer := fun _ _ => .ok ⟨"L"⟩
  makeModel := fun _ _ name => .ok ⟨name, none, []⟩
  loadModelPlugin := fun _ _ => .ok ()

/-- World description with three (empty-map) layer entries. -/
def yamlThreeLayers : Yaml := .map [("layers", .seq [.map [], .map [], .map []])]

/-- World description with two layer entries. -/
def yamlTwoLayers : Yaml := .map [("layers", .seq [.map [], .map []])]

/-- Well-formed world description with one layer and no models. -/
def yamlWorldOk : Yaml :=
  .map [("properties", .map []), ("layers", .seq [.map []])]

/-- World description with properties but no layers key. -/
def yamlWorldNoLayers : Yaml := .map [("properties", .map [])]

/-- Model entry with no name. -/
def nodeNoName : Yaml := .map [("pose", .seq [.num 0, .num 0, .num 0])]

/-- Model entry whose pose is not a sequence. -/
def nodeBadPose : Yaml := .map [("name", .str "m"), ("pose", .str "x")]

/-- Model entry with a non-numeric pose element. -/
def nodeNonNumPose : Yaml :=
  .map [("name", .str "m"), ("pose", .seq [.str "a", .num 0, .num 0])]

/-- Model entry with no model field. -/
def nodeNoModel : Yaml :=
  .map [("name", .str "m"), ("pose", .seq [.num 1, .num 2, .num 3])]

/-- Model entry with no namespace field. -/
def nodeNoNs : Yaml :=
  .map [("name", .str "m"), ("pose", .seq [.num 1, .num 2, .num 3]),
    ("model", .str "m.yaml")]

/-- Model entry whose model path is relative. -/
def modelEntryRel : Yaml :=
  .map [("name", .str "m1"), ("pose", .seq [.num 0, .num 0, .num 0]),
    ("model", .str "foo.yaml")]

/-- Model entry whose model path is absolute. -/
def modelEntryAbs : Yaml :=
  .map [("name", .str "m1"), ("pose", .seq [.num 0, .num 0, .num 0]),
    ("model", .str "/x/foo.yaml")]

/-- Model entry whose model field is the empty string. -/
def nodeEmptyModel : Yaml :=
  .map [("name", .str "m"), ("pose", .seq [.num 0, .num 0, .num 0]),
    ("model", .str "")]

/-- Environment whose plugin loading always fails. -/
def failEnv : Env where
  MAX_LAYERS := 2
  makeLayer := fun _ _ => .ok ⟨"L"⟩
  makeModel := fun _ _ name => .ok ⟨name, some (.seq [.map []]), []⟩
  loadModelPlugin := fun _ _ => .error (.pluginError "plugin load failed")

/-- World description with one layer and one model declaring one plugin. -/
def yamlPluginFail : Yaml :=
  .map [("properties", .map []), ("layers", .seq [.map []]),
    ("models", .seq [.map [("name", .str "m1"),
      ("pose", .seq [.num 0, .num 0, .num 0]), ("model", .str "m.yaml")]])]

section TraceLemmas

variable {α : Type}

theorem lt_length_of_getElem? {l : List α} {n : Nat} {a : α}
    (h : l[n]? = some a) : n < l.length := by
  rcases List.getElem?_eq_some.mp h with ⟨hn, _⟩
  exact hn

theorem precedes_append_left {xs ys : List α} {e1 e2 : α}
    (h : precedes xs e1 e2) : precedes (xs ++ ys) e1 e2 := by
  rcases h with ⟨a, b, hab, ha, hb⟩
  refine ⟨a, b, hab, ?_, ?_⟩
  · rw [List.getElem?_append_left (lt_length_of_getElem? ha)]; exact ha
  · rw [List.getElem?_append_left (lt_length_of_getElem? hb)]; exact hb

theorem precedes_append_right {xs ys : List α} {e1 e2 : α}
    (h : precedes ys e1 e2) : precedes (xs ++ ys) e1 e2 := by
  rcases h with ⟨a, b, hab, ha, hb⟩
  refine ⟨xs.length + a, xs.length + b, by omega, ?_, ?_⟩
  · rw [List.getElem?_append_right (by omega)]
    simpa using ha
  · rw [List.getElem?_append_right (by omega)]
    simpa using hb

theorem precedes_of_mem_append {xs ys : List α} {e1 e2 : α}
    (h1 : e1 ∈ xs) (h2 : e2 ∈ ys) : precedes (xs ++ ys) e1 e2 := by
  rcases List.mem_iff_getElem?.mp h1 with ⟨a, ha⟩
  rcases List.mem_iff_getElem?.mp h2 with ⟨b, hb⟩
  refine ⟨a, xs.length + b, ?_, ?_, ?_⟩
  · have := lt_length_of_getElem? ha
    omega
  · rw [List.getElem?_append_left (lt_length_of_getElem? ha)]; exact ha
  · rw [List.getElem?_append_right (by omega)]
    simpa using hb

theorem precedes_cons_of_mem {tr : List α} {e1 e2 : α} (h : e2 ∈ tr) :
    precedes (e1 :: tr) e1 e2 := by
  rcases List.mem_iff_getElem?.mp h with ⟨b, hb⟩
  exact ⟨0, b + 1, by omega, by simp, by simpa using hb⟩

theorem precedes_cons {tr : List α} {c e1 e2 : α} (h : precedes tr e1 e2) :
    precedes (c :: tr) e1 e2 := by
  have : precedes ([c] ++ tr) e1 e2 := precedes_append_right h
  simpa using this

end TraceLemmas

theorem destroyWorld_eq (w : World) :
    destroyWorld w =
      TEvent.clearContactListener ::
        (layerTeardown w.layers.length
          ++ (List.range w.models.length).map TEvent.freeModel
          ++ [TEvent.freePhysicsWorld]) := rfl

theorem layerTeardown_succ (n : Nat) :
    layerTeardown (n + 1) =
      layerTeardown n ++ [TEvent.nullBodyPhysicsPtr n, TEvent.freeLayer n] := by
  simp [layerTeardown, List.range_succ]

theorem mem_layerTeardown_freeLayer {n i : Nat} (h : i < n) :
    TEvent.freeLayer i ∈ layerTeardown n := by
  simp only [layerTeardown, List.mem_flatten, List.mem_map]
  exact ⟨[TEvent.nullBodyPhysicsPtr i, TEvent.freeLayer i],
    ⟨i, by simpa using h, rfl⟩, by simp⟩

theorem mem_layerTeardown_null {n i : Nat} (h : i < n) :
    TEvent.nullBodyPhysicsPtr i ∈ layerTeardown n := by
  simp only [layerTeardown, List.mem_flatten, List.mem_map]
  exact ⟨[TEvent.nullBodyPhysicsPtr i, TEvent.freeLayer i],
    ⟨i, by simpa using h, rfl⟩, by simp⟩

theorem not_mem_layerTeardown_destroyBody (n k : Nat) :
    TEvent.destroyBody k ∉ layerTeardown n := by
  simp only [layerTeardown, List.mem_flatten, List.mem_map]
  rintro ⟨l, ⟨i, -, rfl⟩, hmem⟩
  simp at hmem

theorem null_precedes_free {n i : Nat} (h : i < n) :
    precedes (layerTeardown n) (TEvent.nullBodyPhysicsPtr i)
      (TEvent.freeLayer i) := by
  induction n with
  | zero => omega
  | succ m ih =>
    rw [layerTeardown_succ]
    rcases Nat.lt_or_ge i m with hm | hm
    · exact precedes_append_left (ih hm)
    · have hi : i = m := by omega
      subst hi
      exact precedes_append_right ⟨0, 1, by omega, rfl, rfl⟩

/-- C2: the World destructor deregisters the contact listener before any
layer or model is freed; for each layer it nulls the owned body's pointer
into the physics engine before freeing the layer object; every model is
freed after every layer; it never reclaims an individual body through the
engine; and the physics-engine instance is destroyed last. -/
theorem world_destructor_order (w : World) :
    (destroyWorld w)[0]? = some TEvent.clearContactListener
    ∧ (∀ i, i < w.layers.length →
        precedes (destroyWorld w) TEvent.clearContactListener
          (TEvent.freeLayer i))
    ∧ (∀ j, j < w.models.length →
        precedes (destroyWorld w) TEvent.clearContactListener
          (TEvent.freeModel j))
    ∧ (∀ i, i < w.layers.length →
        precedes (destroyWorld w) (TEvent.nullBodyPhysicsPtr i)
          (TEvent.freeLayer i))
    ∧ (∀ i j, i < w.layers.length → j < w.models.length →
        precedes (destroyWorld w) (TEvent.freeLayer i) (TEvent.freeModel j))
    ∧ (∀ k, TEvent.destroyBody k ∉ destroyWorld w)
    ∧ (destroyWorld w).getLast? = some TEvent.freePhysicsWorld := by
  rw [destroyWorld_eq]
  refine ⟨by simp, ?_, ?_, ?_, ?_, ?_, ?_⟩
  · intro i hi
    exact precedes_cons_of_mem (by
      simp only [List.mem_append]
      exact Or.inl (Or.inl (mem_layerTeardown_freeLayer hi)))
  · intro j hj
    exact precedes_cons_of_mem (by
      simp only [List.mem_append]
      exact Or.inl (Or.inr (by simpa using hj)))
  · intro i hi
    exact precedes_cons (precedes_append_left (precedes_append_left
      (null_precedes_free hi)))
  · intro i j hi hj
    refine precedes_cons (precedes_append_left (precedes_of_mem_append
      (mem_layerTeardown_freeLayer hi) ?_))
    simpa using hj
  · intro k
    simp only [List.mem_cons, List.mem_append]
    rintro (h | (h | h) | h)
    · cases h
    · exact not_mem_layerTeardown_destroyBody _ _ h
    · rcases List.mem_map.mp h with ⟨i, -, h⟩
      cases h
    · simp at h
  · have h :
        TEvent.clearContactListener ::
            (layerTeardown w.layers.length
              ++ (List.range w.models.length).map TEvent.freeModel
              ++ [TEvent.freePhysicsWorld]) =
          (TEvent.clearContactListener ::
              (layerTeardown w.layers.length
                ++ (List.range w.models.length).map TEvent.freeModel))
            ++ [TEvent.freePhysicsWorld] := by
      simp
    rw [h, List.getLast?_concat]

/-- Closed instance of the destructor-ordering theorem on a World with two
layers and one model. -/
theorem world_destructor_order_witness :
    precedes (destroyWorld ⟨[⟨"l0"⟩, ⟨"l1"⟩], [⟨"m0", none, []⟩], 2⟩)
        (TEvent.nullBodyPhysicsPtr 1) (TEvent.freeLayer 1)
    ∧ precedes (destroyWorld ⟨[⟨"l0"⟩, ⟨"l1"⟩], [⟨"m0", none, []⟩], 2⟩)
        (TEvent.freeLayer 1) (TEvent.freeModel 0) :=
  ⟨(world_destructor_order _).2.2.2.1 1 (by decide),
    (world_destructor_order _).2.2.2.2.1 1 0 (by decide) (by decide)⟩

/-- C3: one call to Update runs the pre-step hook strictly before the single
physics step, advances the engine exactly one fixed step with the
timekeeper's step size and the fixed solver iteration counts 10 and 10,
advances the timekeeper's clock after the step, and runs the post-step hook
strictly after all of these; exactly one physics step occurs. -/
theorem world_update_spec (tk : Timekeeper) :
    (worldUpdate tk).1.time = tk.time + tk.stepSize
    ∧ (worldUpdate tk).1.stepSize = tk.stepSize
    ∧ ((worldUpdate tk).2.countP fun e => e.isPhysicsStep) = 1
    ∧ UEvent.physicsStep tk.getStepSize 10 10 ∈ (worldUpdate tk).2
    ∧ precedes (worldUpdate tk).2 UEvent.beforePhysicsStep
        (UEvent.physicsStep tk.getStepSize 10 10)
    ∧ precedes (worldUpdate tk).2 (UEvent.physicsStep tk.getStepSize 10 10)
        UEvent.stepTime
    ∧ precedes (worldUpdate tk).2 UEvent.stepTime UEvent.afterPhysicsStep := by
  refine ⟨rfl, rfl, ?_, ?_, ?_, ?_, ?_⟩
  · simp [worldUpdate, UEvent.isPhysicsStep]
  · simp [worldUpdate]
  · exact ⟨0, 1, by omega, by simp [worldUpdate], by simp [worldUpdate]⟩
  · exact ⟨1, 2, by omega, by simp [worldUpdate], by simp [worldUpdate]⟩
  · exact ⟨2, 3, by omega, by simp [worldUpdate], by simp [worldUpdate]⟩

theorem withTrace_nil (r : LoadResult) : r.withTrace [] = r := by
  cases r <;> simp [LoadResult.withTrace]

theorem withTrace_withTrace (r : LoadResult) (t1 t2 : List LEvent) :
    (r.withTrace t2).withTrace t1 = r.withTrace (t1 ++ t2) := by
  cases r <;> simp [LoadResult.withTrace]

theorem loadLayersFrom_append (env : Env) (dir : String) (ns2 : List Yaml) :
    ∀ (ns1 : List Yaml) (w w1 : World) (tr1 : List LEvent),
      loadLayersFrom env dir ns1 w = .ok w1 tr1 →
      loadLayersFrom env dir (ns1 ++ ns2) w =
        (loadLayersFrom env dir ns2 w1).withTrace tr1
  | [], w, w1, tr1, h => by
    simp only [loadLayersFrom] at h
    cases h
    simp [withTrace_nil]
  | n :: rest, w, w1, tr1, h => by
    simp only [loadLayersFrom, List.cons_append, List.append_eq] at h ⊢
    by_cases hfull : isLayersFull env.MAX_LAYERS w.cfrLayerCount
    · rw [if_pos hfull] at h
      exact LoadResult.noConfusion h
    · rw [if_neg hfull] at h ⊢
      cases hml : env.makeLayer dir n with
      | error e =>
        simp only [hml] at h
        exact LoadResult.noConfusion h
      | ok layer =>
        simp only [hml] at h ⊢
        cases hr : loadLayersFrom env dir rest
            { w with
              layers := w.layers ++ [layer],
              cfrLayerCount := w.cfrLayerCount + 1 } with
        | ok w2 tr2 =>
          rw [hr] at h
          simp only [LoadResult.withTrace] at h
          injection h with h1 h2
          subst h1; subst h2
          rw [loadLayersFrom_append env dir ns2 rest _ _ _ hr,
            withTrace_withTrace]
        | err w2 e2 tr2 => rw [hr] at h; simp [LoadResult.withTrace] at h
        | undef tr2 => rw [hr] at h; simp [LoadResult.withTrace] at h

theorem loadLayersFrom_ok (env : Env) (dir : String) (f : Yaml → Layer) :
    ∀ (nodes : List Yaml) (w : World),
      (∀ n ∈ nodes, env.makeLayer dir n = .ok (f n)) →
      w.cfrLayerCount + nodes.length ≤ env.MAX_LAYERS →
      ∃ tr, loadLayersFrom env dir nodes w =
        .ok ⟨w.layers ++ nodes.map f, w.models,
          w.cfrLayerCount + nodes.length⟩ tr
  | [], w, _, _ => by
    refine ⟨[], ?_⟩
    simp only [loadLayersFrom]
    cases w
    simp
  | n :: rest, w, hmk, hlen => by
    have hfull : ¬ isLayersFull env.MAX_LAYERS w.cfrLayerCount := by
      simp only [isLayersFull, decide_eq_true_eq]
      simp at hlen
      omega
    obtain ⟨tr, ih⟩ := loadLayersFrom_ok env dir f rest
      { w with
        layers := w.layers ++ [f n],
        cfrLayerCount := w.cfrLayerCount + 1 }
      (fun m hm => hmk m (List.mem_cons_of_mem _ hm))
      (by simp at hlen ⊢; omega)
    refine ⟨[.makeLayerCall dir, .layerLoaded (f n).name] ++ tr, ?_⟩
    simp only [loadLayersFrom]
    rw [if_neg hfull]
    simp only [hmk n (List.mem_cons_self n rest)]
    rw [ih]
    simp only [LoadResult.withTrace, LoadResult.ok.injEq, World.mk.injEq,
      List.map_cons, List.length_cons]
    refine ⟨⟨?_, trivial, ?_⟩, trivial⟩
    · simp
    · omega

/-- C4: with the collision filter registry starting empty, a layers sequence
of MAX_LAYERS + 1 entries fails with a DescriptionError whose message names
the limit — the check fires on the final entry before its layer is built
(nothing is assumed about the builder on that entry) — while exactly
MAX_LAYERS entries succeed. -/
theorem load_layers_max_limit (env : Env) (yamlPath : String) (yaml : Yaml)
    (nodes : List Yaml) (f : Yaml → Layer)
    (hget : yaml.get "layers" = some (.seq nodes))
    (hmk : ∀ n ∈ nodes.take env.MAX_LAYERS,
      env.makeLayer (parentPath yamlPath) n = .ok (f n)) :
    (nodes.length = env.MAX_LAYERS + 1 →
      ∃ w' tr, loadLayers env yamlPath yaml World.new =
          .err w'
            (.descriptionError
              ("Max number of layers reached, max is " ++ toString env.MAX_LAYERS))
            tr
        ∧ w'.layers = (nodes.take env.MAX_LAYERS).map f)
    ∧ (nodes.length = env.MAX_LAYERS →
      ∃ w' tr, loadLayers env yamlPath yaml World.new = .ok w' tr
        ∧ w'.layers = nodes.map f) := by
  constructor
  · intro hlen
    obtain ⟨tr, hok⟩ := loadLayersFrom_ok env (parentPath yamlPath) f
      (nodes.take env.MAX_LAYERS) World.new
      hmk
      (by simp [World.new])
    have hsplit : nodes = nodes.take env.MAX_LAYERS ++ nodes.drop env.MAX_LAYERS :=
      (List.take_append_drop _ _).symm
    have hdrop : ∃ d, nodes.drop env.MAX_LAYERS = [d] := by
      have : (nodes.drop env.MAX_LAYERS).length = 1 := by
        simp [hlen]
      match hd : nodes.drop env.MAX_LAYERS with
      | [d] => exact ⟨d, rfl⟩
      | [] => rw [hd] at this; simp at this
      | d1 :: d2 :: ds => rw [hd] at this; simp at this
    obtain ⟨d, hd⟩ := hdrop
    have htake : (nodes.take env.MAX_LAYERS).length = env.MAX_LAYERS := by
      simp [hlen]
    have hfull : isLayersFull env.MAX_LAYERS
        (World.new.cfrLayerCount + (nodes.take env.MAX_LAYERS).length) := by
      simp [isLayersFull, World.new, htake]
    have hres : loadLayers env yamlPath yaml World.new =
        .err
          ⟨World.new.layers ++ (nodes.take env.MAX_LAYERS).map f,
            World.new.models,
            World.new.cfrLayerCount + (nodes.take env.MAX_LAYERS).length⟩
          (.descriptionError
            ("Max number of layers reached, max is " ++ toString env.MAX_LAYERS))
          (tr ++ []) := by
      simp only [loadLayers, hget]
      conv_lhs => rw [hsplit, hd]
      rw [loadLayersFrom_append env (parentPath yamlPath) [d] _ _ _ _ hok]
      simp only [loadLayersFrom]
      rw [if_pos hfull]
      simp [LoadResult.withTrace]
    exact ⟨_, _, hres, by simp [World.new]⟩
  · intro hlen
    have htake : nodes.take env.MAX_LAYERS = nodes :=
      List.take_of_length_le (by omega)
    obtain ⟨tr, hok⟩ := loadLayersFrom_ok env (parentPath yamlPath) f
      nodes World.new
      (fun n hn => hmk n (by rw [htake]; exact hn))
      (by simp [World.new, hlen])
    have hres : loadLayers env yamlPath yaml World.new =
        .ok
          ⟨World.new.layers ++ nodes.map f, World.new.models,
            World.new.cfrLayerCount + nodes.length⟩ tr := by
      simp only [loadLayers, hget]
      exact hok
    exact ⟨_, tr, hres, by simp [World.new]⟩

/-- C5: for a well-formed description whose layers sequence has N entries
with N at most MAX_LAYERS (and all layer builds succeeding), MakeWorld
returns a World whose layers are exactly the N built layers in description
order; and for a description whose layers key is missing or not a sequence,
MakeWorld fails with the corresponding DescriptionError (tearing down the
still-empty World). -/
theorem make_world_layer_count (env : Env) (yamlPath : String) (yaml : Yaml)
    (props : Yaml) (nodes : List Yaml) (f : Yaml → Layer)
    (hprops : yaml.get "properties" = some props) (hmap : props.isMap = true)
    (hlayers : yaml.get "layers" = some (.seq nodes))
    (hmodels : yaml.get "models" = none)
    (hlen : nodes.length ≤ env.MAX_LAYERS)
    (hmk : ∀ n ∈ nodes, env.makeLayer (parentPath yamlPath) n = .ok (f n)) :
    (∃ w, makeWorld env yamlPath yaml = .ok w ∧ w.layers = nodes.map f)
    ∧ (∀ yaml2 props2, yaml2.get "properties" = some props2 →
        props2.isMap = true →
        (yaml2.get "layers" = none
          ∨ ∃ y, yaml2.get "layers" = some y ∧ y.isSequence = false) →
        makeWorld env yamlPath yaml2 =
          .err (.descriptionError "Missing/invalid world param \"layers\"")
            (destroyWorld World.new)) := by
  constructor
  · obtain ⟨tr, hok⟩ := loadLayersFrom_ok env (parentPath yamlPath) f
      nodes World.new hmk (by simp [World.new]; omega)
    have hll : loadLayers env yamlPath yaml World.new =
        .ok
          ⟨World.new.layers ++ nodes.map f, World.new.models,
            World.new.cfrLayerCount + nodes.length⟩ tr := by
      simp only [loadLayers, hlayers]
      exact hok
    have hlm : ∀ w : World, loadModels env yamlPath yaml w = .ok w [] := by
      intro w
      simp only [loadModels, hmodels]
    have hstage : loadStage env yamlPath yaml World.new =
        .ok
          ⟨World.new.layers ++ nodes.map f, World.new.models,
            World.new.cfrLayerCount + nodes.length⟩ (tr ++ []) := by
      simp only [loadStage, hll, hlm, LoadResult.withTrace]
    refine ⟨⟨World.new.layers ++ nodes.map f, World.new.models,
      World.new.cfrLayerCount + nodes.length⟩, ?_, by simp [World.new]⟩
    simp only [makeWorld, hprops, if_pos hmap, hstage]
  · intro yaml2 props2 h2props h2map hbad
    have hll : loadLayers env yamlPath yaml2 World.new =
        .err World.new
          (.descriptionError "Missing/invalid world param \"layers\"") [] := by
      rcases hbad with hnone | ⟨y, hy, hns⟩
      · simp only [loadLayers, hnone]
      · cases y with
        | str s => simp only [loadLayers, hy]
        | num x => simp only [loadLayers, hy]
        | seq items => simp [Yaml.isSequence] at hns
        | map es => simp only [loadLayers, hy]
    have hstage : loadStage env yamlPath yaml2 World.new =
        .err World.new
          (.descriptionError "Missing/invalid world param \"layers\"") [] := by
      simp only [loadStage, hll]
    simp only [makeWorld, h2props, if_pos h2map, hstage]

/-- Closed instance of the MAX_LAYERS limit theorem: with the bound at two,
three layer entries fail with the message naming the bound and two succeed. -/
theorem load_layers_max_limit_witness :
    (∃ w' tr, loadLayers sampleEnv "/w/world.yaml" yamlThreeLayers World.new =
        .err w'
          (.descriptionError
            ("Max number of layers reached, max is " ++ toString sampleEnv.MAX_LAYERS))
          tr
      ∧ w'.layers =
          (([Yaml.map [], Yaml.map [], Yaml.map []].take sampleEnv.MAX_LAYERS).map
            fun _ => (⟨"L"⟩ : Layer)))
    ∧ (∃ w' tr, loadLayers sampleEnv "/w/world.yaml" yamlTwoLayers World.new =
        .ok w' tr
      ∧ w'.layers = ([Yaml.map [], Yaml.map []].map fun _ => (⟨"L"⟩ : Layer))) :=
  ⟨(load_layers_max_limit sampleEnv "/w/world.yaml" yamlThreeLayers
      [Yaml.map [], Yaml.map [], Yaml.map []] (fun _ => ⟨"L"⟩) rfl
      (fun _ _ => rfl)).1 rfl,
    (load_layers_max_limit sampleEnv "/w/world.yaml" yamlTwoLayers
      [Yaml.map [], Yaml.map []] (fun _ => ⟨"L"⟩) rfl
      (fun _ _ => rfl)).2 rfl⟩

/-- Closed instance of the layer-count theorem: one layer entry yields a
World with exactly that layer, and a missing layers key fails. -/
theorem make_world_layer_count_witness :
    (∃ w, makeWorld sampleEnv "/w/world.yaml" yamlWorldOk = .ok w
      ∧ w.layers = ([Yaml.map []].map fun _ => (⟨"L"⟩ : Layer)))
    ∧ makeWorld sampleEnv "/w/world.yaml" yamlWorldNoLayers =
        .err (.descriptionError "Missing/invalid world param \"layers\"")
          (destroyWorld World.new) := by
  have h := make_world_layer_count sampleEnv "/w/world.yaml" yamlWorldOk
    (Yaml.map []) [Yaml.map []] (fun _ => ⟨"L"⟩) rfl rfl rfl rfl
    (by decide) (fun _ _ => rfl)
  exact ⟨h.1, h.2 yamlWorldNoLayers (Yaml.map []) rfl rfl (Or.inl rfl)⟩

theorem loadModel_trace_head (env : Env) (p ns nm : String) (pose : Pose)
    (w : World) :
    (loadModel env p ns nm pose w).trace.head? =
      some (.makeModelCall p ns nm) := by
  simp only [loadModel]
  cases hm : env.makeModel p ns nm with
  | error e => simp [LoadResult.trace]
  | ok m =>
    cases hp : m.plugins_node with
    | none => simp [LoadResult.trace, hp]
    | some pn =>
      cases pn with
      | seq pnodes =>
        simp only [hp]
        cases hpl : loadPluginList env
            { name := m.name, plugins_node := some (Yaml.seq pnodes),
              transforms := m.transforms ++ [pose] } pnodes with
        | mk r tr =>
          cases r with
          | error e => simp [LoadResult.trace]
          | ok u => simp [LoadResult.trace]
      | str s => simp [LoadResult.trace, hp]
      | num x => simp [LoadResult.trace, hp]
      | map es => simp [LoadResult.trace, hp]

theorem loadModelsFrom_single_trace (env : Env) (dir : String) (i : Nat)
    (n : Yaml) (w : World) :
    (loadModelsFrom env dir i [n] w).trace = (loadModelEntry env dir i n w).trace := by
  simp only [loadModelsFrom]
  cases loadModelEntry env dir i n w with
  | ok w' tr => simp [loadModelsFrom, LoadResult.withTrace, LoadResult.trace]
  | err w' e tr => simp [LoadResult.trace]
  | undef tr => simp [LoadResult.trace]

/-- C9: when the model build succeeds, LoadModel applies the pose transform
exactly once, appends the model to the World's models sequence, and only
then makes any plugin-manager call: whatever happens during plugin
validation or loading, the resulting World (also the partial one carried by
an error) owns the transformed model, and no plugin-load call precedes the
append in the trace. -/
theorem load_model_owned_before_plugins (env : Env) (p ns nm : String)
    (pose : Pose) (w : World) (m : Model)
    (h : env.makeModel p ns nm = .ok m) :
    (loadModel env p ns nm pose w).world? =
      some { w with models :=
        w.models ++ [{ m with transforms := m.transforms ++ [pose] }] }
    ∧ ∃ pre post, (loadModel env p ns nm pose w).trace
        = pre ++ LEvent.modelAppended m.name :: post
      ∧ (∀ e ∈ pre, ∀ s, e ≠ LEvent.pluginLoadCall s)
      ∧ LEvent.transformAll m.name pose ∈ pre := by
  simp only [loadModel, h]
  cases hp : m.plugins_node with
  | none =>
    refine ⟨by simp [LoadResult.world?], [.makeModelCall p ns nm, .transformAll m.name pose],
      [.modelLoaded m.name], by simp [LoadResult.trace], ?_, by simp⟩
    intro e he s
    simp only [List.mem_cons, List.mem_singleton] at he
    rcases he with rfl | rfl | h'
    · simp
    · simp
    · cases h'
  | some pn =>
    cases pn with
    | seq pnodes =>
      simp only [hp]
      cases hpl : loadPluginList env
          { name := m.name, plugins_node := some (Yaml.seq pnodes),
            transforms := m.transforms ++ [pose] } pnodes with
      | mk r tr =>
        cases r with
        | error e =>
          refine ⟨by simp [LoadResult.world?],
            [.makeModelCall p ns nm, .transformAll m.name pose], tr,
            by simp [LoadResult.trace], ?_, by simp⟩
          intro ev hev s
          simp only [List.mem_cons, List.mem_singleton] at hev
          rcases hev with rfl | rfl | h'
          · simp
          · simp
          · cases h'
        | ok u =>
          refine ⟨by simp [LoadResult.world?],
            [.makeModelCall p ns nm, .transformAll m.name pose],
            tr ++ [.modelLoaded m.name],
            by simp [LoadResult.trace], ?_, by simp⟩
          intro ev hev s
          simp only [List.mem_cons, List.mem_singleton] at hev
          rcases hev with rfl | rfl | h'
          · simp
          · simp
          · cases h'
    | str s =>
      refine ⟨by simp [LoadResult.world?, hp],
        [.makeModelCall p ns nm, .transformAll m.name pose], [],
        by simp [LoadResult.trace, hp], ?_, by simp⟩
      intro ev hev s'
      simp only [List.mem_cons, List.mem_singleton] at hev
      rcases hev with rfl | rfl | h'
      · simp
      · simp
      · cases h'
    | num x =>
      refine ⟨by simp [LoadResult.world?, hp],
        [.makeModelCall p ns nm, .transformAll m.name pose], [],
        by simp [LoadResult.trace, hp], ?_, by simp⟩
      intro ev hev s'
      simp only [List.mem_cons, List.mem_singleton] at hev
      rcases hev with rfl | rfl | h'
      · simp
      · simp
      · cases h'
    | map es =>
      refine ⟨by simp [LoadResult.world?, hp],
        [.makeModelCall p ns nm, .transformAll m.name pose], [],
        by simp [LoadResult.trace, hp], ?_, by simp⟩
      intro ev hev s'
      simp only [List.mem_cons, List.mem_singleton] at hev
      rcases hev with rfl | rfl | h'
      · simp
      · simp
      · cases h'

/-- Closed instance of the model-ownership theorem at a plugin-free model. -/
theorem load_model_owned_before_plugins_witness :
    (loadModel sampleEnv "/w/m.yaml" "" "m1" (1, 2, 3) World.new).world? =
      some { World.new with models :=
        [{ name := "m1", plugins_node := none, transforms := [((1 : Rat), (2 : Rat), (3 : Rat))] }] }
    ∧ ∃ pre post,
        (loadModel sampleEnv "/w/m.yaml" "" "m1" (1, 2, 3) World.new).trace
          = pre ++ LEvent.modelAppended "m1" :: post
        ∧ (∀ e ∈ pre, ∀ s, e ≠ LEvent.pluginLoadCall s)
        ∧ LEvent.transformAll "m1" (1, 2, 3) ∈ pre :=
  load_model_owned_before_plugins sampleEnv "/w/m.yaml" "" "m1" (1, 2, 3)
    World.new ⟨"m1", none, []⟩ rfl

/-- C8 evidence: a models key that is present but not a sequence fails with
a DescriptionError, but its message names the field "layers", not "models"
(the copy-paste slip of world.cpp line 195). -/
theorem load_models_nonseq_message (env : Env) (path : String) (w : World) :
    loadModels env path (Yaml.map [("models", Yaml.str "nope")]) w =
      .err w (.descriptionError "Invalid world param \"layers\", must be a sequence")
        [] := rfl

/-- C6: per model entry, in order: a missing name fails with a
DescriptionError citing the entry index; a pose that is absent or not a
sequence of exactly three elements fails with the pose DescriptionError,
and a pose element that is not numeric fails with a conversion
DescriptionError; a missing model field fails with a DescriptionError
naming the entry; and a missing namespace is not an error — the namespace
handed to the model build defaults to the empty string. -/
theorem load_model_entry_fields (env : Env) (dir : String) (i : Nat)
    (w : World) :
    (∀ node : Yaml, node.get "name" = none →
      loadModelEntry env dir i node w =
        .err w
          (.descriptionError ("Missing model name in model index=" ++ toString i))
          [])
    ∧ (∀ node nn name ns, node.get "name" = some nn →
        nn.asString = some name →
        (node.get "namespace").elim (some "") Yaml.asString = some ns →
        (node.get "pose" = none
          ∨ ∃ y, node.get "pose" = some y ∧ ∀ a b c, y ≠ Yaml.seq [a, b, c]) →
        loadModelEntry env dir i node w =
          .err w
            (.descriptionError ("Missing/invalid \"pose\" in " ++ name ++ " model"))
            [])
    ∧ (∀ node nn name ns p0 p1 p2, node.get "name" = some nn →
        nn.asString = some name →
        (node.get "namespace").elim (some "") Yaml.asString = some ns →
        node.get "pose" = some (Yaml.seq [p0, p1, p2]) →
        (p0.asRat = none ∨ p1.asRat = none ∨ p2.asRat = none) →
        loadModelEntry env dir i node w =
          .err w (.descriptionError "bad conversion") [])
    ∧ (∀ node nn name ns p0 p1 p2 x y t, node.get "name" = some nn →
        nn.asString = some name →
        (node.get "namespace").elim (some "") Yaml.asString = some ns →
        node.get "pose" = some (Yaml.seq [p0, p1, p2]) →
        p0.asRat = some x → p1.asRat = some y → p2.asRat = some t →
        node.get "model" = none →
        loadModelEntry env dir i node w =
          .err w
            (.descriptionError ("Missing \"model\" in " ++ name ++ " model")) [])
    ∧ (∀ node nn name p0 p1 p2 x y t mn mp rp, node.get "name" = some nn →
        nn.asString = some name →
        node.get "namespace" = none →
        node.get "pose" = some (Yaml.seq [p0, p1, p2]) →
        p0.asRat = some x → p1.asRat = some y → p2.asRat = some t →
        node.get "model" = some mn → mn.asString = some mp →
        resolveModelPath dir mp = some rp →
        (loadModelEntry env dir i node w).trace.head? =
          some (.makeModelCall rp "" name)
        ∧ ∀ m : Model, env.makeModel rp "" name = .ok m →
            m.plugins_node = none →
            (loadModelEntry env dir i node w).isOk = true) := by
  refine ⟨?_, ?_, ?_, ?_, ?_⟩
  · intro node h
    simp only [loadModelEntry, h]
  · intro node nn name ns hn hna hns hbad
    simp only [loadModelEntry, hn, hna, hns]
    rcases hbad with hp | ⟨y, hy, hne⟩
    · simp only [hp]
    · cases y with
      | str s => simp only [hy]
      | num q => simp only [hy]
      | map es => simp only [hy]
      | seq items =>
        rcases items with _ | ⟨a, _ | ⟨b, _ | ⟨c, _ | ⟨d, rest⟩⟩⟩⟩
        · simp only [hy]
        · simp only [hy]
        · simp only [hy]
        · exact absurd rfl (hne a b c)
        · simp only [hy]
  · intro node nn name ns p0 p1 p2 hn hna hns hp hbad
    simp only [loadModelEntry, hn, hna, hns, hp]
    rcases hbad with h0 | h1 | h2
    · simp only [h0]
    · cases h0 : p0.asRat with
      | none => simp only []
      | some x => simp only [h1]
    · cases h0 : p0.asRat with
      | none => simp only []
      | some x =>
        cases h1 : p1.asRat with
        | none => simp only []
        | some y => simp only [h2]
  · intro node nn name ns p0 p1 p2 x y t hn hna hns hp h0 h1 h2 hm
    simp only [loadModelEntry, hn, hna, hns, hp, h0, h1, h2, hm]
  · intro node nn name p0 p1 p2 x y t mn mp rp hn hna hnns hp h0 h1 h2 hm hma hrp
    constructor
    · have hred : loadModelEntry env dir i node w =
          loadModel env rp "" name (x, y, t) w := by
        simp only [loadModelEntry, hn, hna, hnns, Option.elim, hp, h0, h1, h2,
          hm, hma, hrp]
      rw [hred]
      exact loadModel_trace_head env rp "" name (x, y, t) w
    · intro m hmk hmpn
      have hred : loadModelEntry env dir i node w =
          loadModel env rp "" name (x, y, t) w := by
        simp only [loadModelEntry, hn, hna, hnns, Option.elim, hp, h0, h1, h2,
          hm, hma, hrp]
      rw [hred]
      simp only [loadModel, hmk, hmpn, LoadResult.isOk]

/-- Closed instance of the per-entry field-validation theorem on five
concrete model entries. -/
theorem load_model_entry_fields_witness :
    loadModelEntry sampleEnv "/w" 0 nodeNoName World.new =
      .err World.new (.descriptionError "Missing model name in model index=0") []
    ∧ loadModelEntry sampleEnv "/w" 0 nodeBadPose World.new =
      .err World.new (.descriptionError "Missing/invalid \"pose\" in m model") []
    ∧ loadModelEntry sampleEnv "/w" 0 nodeNonNumPose World.new =
      .err World.new (.descriptionError "bad conversion") []
    ∧ loadModelEntry sampleEnv "/w" 0 nodeNoModel World.new =
      .err World.new (.descriptionError "Missing \"model\" in m model") []
    ∧ (loadModelEntry sampleEnv "/w" 0 nodeNoNs World.new).trace.head? =
      some (.makeModelCall "/w/m.yaml" "" "m")
    ∧ (loadModelEntry sampleEnv "/w" 0 nodeNoNs World.new).isOk = true := by
  have h := load_model_entry_fields sampleEnv "/w" 0 World.new
  have h5 := h.2.2.2.2 nodeNoNs (.str "m") "m" (.num 1) (.num 2) (.num 3)
    1 2 3 (.str "m.yaml") "m.yaml" "/w/m.yaml" rfl rfl rfl rfl rfl rfl rfl rfl
    rfl (by decide)
  exact ⟨h.1 nodeNoName rfl,
    h.2.1 nodeBadPose (.str "m") "m" "" rfl rfl rfl
      (Or.inr ⟨.str "x", rfl, fun a b c hc => Yaml.noConfusion hc⟩),
    h.2.2.1 nodeNonNumPose (.str "m") "m" "" (.str "a") (.num 0) (.num 0)
      rfl rfl rfl rfl (Or.inl rfl),
    h.2.2.2.1 nodeNoModel (.str "m") "m" "" (.num 1) (.num 2) (.num 3)
      1 2 3 rfl rfl rfl rfl rfl rfl rfl rfl,
    h5.1,
    h5.2 ⟨"m", none, []⟩ rfl rfl⟩

/-- C7: with the top-level description at /a/b/world.yaml, a model entry
with model "foo.yaml" reaches the model build with the resolved path
/a/b/foo.yaml, and one with model "/x/foo.yaml" reaches it with the path
unchanged — for every environment, since the build call is recorded before
its outcome matters. -/
theorem model_path_resolution (env : Env) :
    (loadModels env "/a/b/world.yaml" (Yaml.map [("models", .seq [modelEntryRel])])
        World.new).trace.head? = some (.makeModelCall "/a/b/foo.yaml" "" "m1")
    ∧ (loadModels env "/a/b/world.yaml" (Yaml.map [("models", .seq [modelEntryAbs])])
        World.new).trace.head? = some (.makeModelCall "/x/foo.yaml" "" "m1") := by
  constructor
  · have h1 : loadModels env "/a/b/world.yaml"
        (Yaml.map [("models", .seq [modelEntryRel])]) World.new =
        loadModelsFrom env "/a/b" 0 [modelEntryRel] World.new := rfl
    have hpj : pathJoin "/a/b" "foo.yaml" = "/a/b/foo.yaml" := by decide
    have h2 : loadModelEntry env "/a/b" 0 modelEntryRel World.new =
        loadModel env (pathJoin "/a/b" "foo.yaml") "" "m1" (0, 0, 0) World.new := rfl
    rw [h1, loadModelsFrom_single_trace, h2, hpj]
    exact loadModel_trace_head env "/a/b/foo.yaml" "" "m1" (0, 0, 0) World.new
  · have h1 : loadModels env "/a/b/world.yaml"
        (Yaml.map [("models", .seq [modelEntryAbs])]) World.new =
        loadModelsFrom env "/a/b" 0 [modelEntryAbs] World.new := rfl
    have h2 : loadModelEntry env "/a/b" 0 modelEntryAbs World.new =
        loadModel env "/x/foo.yaml" "" "m1" (0, 0, 0) World.new := rfl
    rw [h1, loadModelsFrom_single_trace, h2]
    exact loadModel_trace_head env "/x/foo.yaml" "" "m1" (0, 0, 0) World.new

/-- C10: path resolution decides absoluteness by the first character alone —
for a non-empty path it returns the path unchanged when that character is
the separator and the joined path otherwise — while on the empty string the
front() access is out of bounds, so resolution yields no result and an
entry carrying an empty model path runs into undefined behaviour. -/
theorem resolve_model_path_first_char (dir mp : String) :
    (mp = "" → resolveModelPath dir mp = none)
    ∧ (∀ c cs, mp.data = c :: cs →
        resolveModelPath dir mp =
          some (if c = '/' then mp else pathJoin dir mp))
    ∧ (∀ (env : Env) (i : Nat) (w : World),
        loadModelEntry env dir i nodeEmptyModel w = .undef []) := by
  refine ⟨?_, ?_, ?_⟩
  · intro h
    subst h
    rfl
  · intro c cs h
    simp only [resolveModelPath, h]
  · intro env i w
    rfl

/-- Closed instance of the path-resolution theorem at an empty, a relative
and an absolute path. -/
theorem resolve_model_path_first_char_witness :
    resolveModelPath "/a/b" "" = none
    ∧ resolveModelPath "/a/b" "foo.yaml" =
        some (if 'f' = '/' then "foo.yaml" else pathJoin "/a/b" "foo.yaml")
    ∧ resolveModelPath "/a/b" "/x/foo.yaml" =
        some (if '/' = '/' then "/x/foo.yaml" else pathJoin "/a/b" "/x/foo.yaml") :=
  ⟨(resolve_model_path_first_char "/a/b" "").1 rfl,
    (resolve_model_path_first_char "/a/b" "foo.yaml").2.1 'f' "oo.yaml".data rfl,
    (resolve_model_path_first_char "/a/b" "/x/foo.yaml").2.1 '/' "x/foo.yaml".data rfl⟩

/-- C1: when the loading phase of MakeWorld throws a description or plugin
error, MakeWorld re-raises exactly that error and runs the full teardown on
the partially-built World — the teardown deregisters the contact listener
first and frees every layer, every model and the physics-engine instance —
and MakeWorld does not return a World. -/
theorem make_world_error_teardown (env : Env) (yamlPath : String)
    (yaml props : Yaml) (w : World) (e : Err) (tr : List LEvent)
    (hprops : yaml.get "properties" = some props) (hmap : props.isMap = true)
    (hload : loadStage env yamlPath yaml World.new = .err w e tr) :
    makeWorld env yamlPath yaml = .err e (destroyWorld w)
    ∧ (destroyWorld w)[0]? = some TEvent.clearContactListener
    ∧ (∀ i, i < w.layers.length → TEvent.freeLayer i ∈ destroyWorld w)
    ∧ (∀ j, j < w.models.length → TEvent.freeModel j ∈ destroyWorld w)
    ∧ TEvent.freePhysicsWorld ∈ destroyWorld w
    ∧ ∀ w', makeWorld env yamlPath yaml ≠ .ok w' := by
  have hmk : makeWorld env yamlPath yaml = .err e (destroyWorld w) := by
    simp only [makeWorld, hprops, if_pos hmap, hload]
  refine ⟨hmk, by rw [destroyWorld_eq]; simp, ?_, ?_, ?_, ?_⟩
  · intro i hi
    rw [destroyWorld_eq]
    simp only [List.mem_cons, List.mem_append]
    exact Or.inr (Or.inl (Or.inl (mem_layerTeardown_freeLayer hi)))
  · intro j hj
    rw [destroyWorld_eq]
    simp only [List.mem_cons, List.mem_append]
    exact Or.inr (Or.inl (Or.inr (by simpa using hj)))
  · rw [destroyWorld_eq]
    simp
  · intro w' hcontra
    rw [hmk] at hcontra
    exact MakeResult.noConfusion hcontra

/-- Closed instance of the error-teardown theorem: a plugin-load failure
after one layer and one model are built makes MakeWorld re-raise the plugin
error and tear down the partial World. -/
theorem make_world_error_teardown_witness :
    makeWorld failEnv "/w/world.yaml" yamlPluginFail =
      .err (.pluginError "plugin load failed")
        (destroyWorld ⟨[⟨"L"⟩],
          [⟨"m1", some (.seq [.map []]), [((0 : Rat), (0 : Rat), (0 : Rat))]⟩], 1⟩)
    ∧ TEvent.freePhysicsWorld ∈
        destroyWorld ⟨[⟨"L"⟩],
          [⟨"m1", some (.seq [.map []]), [((0 : Rat), (0 : Rat), (0 : Rat))]⟩], 1⟩ := by
  have h := make_world_error_teardown failEnv "/w/world.yaml" yamlPluginFail
    (.map [])
    ⟨[⟨"L"⟩], [⟨"m1", some (.seq [.map []]), [((0 : Rat), (0 : Rat), (0 : Rat))]⟩], 1⟩
    (.pluginError "plugin load failed")
    [.makeLayerCall "/w", .layerLoaded "L", .makeModelCall "/w/m.yaml" "" "m1",
      .transformAll "m1" (0, 0, 0), .modelAppended "m1", .pluginLoadCall "m1"]
    rfl rfl rfl
  exact ⟨h.1, h.2.2.2.2.1⟩

end Flatland
